import Mathlib

/-!
Shallow embedding of the exif-sorter program (src/main.go).

The program resolves a capture date for each walked media file (embedded
metadata first, filename pattern as fallback), computes a destination path
from a date-format template, copies or renames the file there, and
optionally backfills the resolved date into the file's metadata.

Library functions from Go's standard library (`time.Parse`, `time.Format`,
`path/filepath`, `strings`) are modelled faithfully for the fragment the
program exercises: the numeric layout chunks `2006 01 02 15 04 05` used by
its layouts, and POSIX path semantics for `filepath` (the program does not
use Windows paths).  External I/O (exiftool, the filesystem) is modelled by
explicit parameters (a tag-lookup function for a file's metadata, success
flags for each I/O step) and by traces of the I/O events the code emits.
-/

namespace ExifSorter

/-- Model of Go `time.Time` restricted to the calendar fields the program
reads and writes (the program never uses zones or nanoseconds). -/
structure GoTime where
  year : Nat
  month : Nat
  day : Nat
  hour : Nat
  minute : Nat
  second : Nat
deriving DecidableEq, Repr

/-- Go's zero `time.Time`: January 1, year 1, 00:00:00 (`Time.IsZero`). -/
def goZeroTime : GoTime := ⟨1, 1, 1, 0, 0, 0⟩

/-- Defaults for fields a parse layout omits: Go `time.Parse` documents
"January 1, year 0, 00:00:00". -/
def parseDefault : GoTime := ⟨0, 1, 1, 0, 0, 0⟩

/-- Go leap-year rule (`time.isLeap`). -/
def isLeap (y : Nat) : Bool := (y % 4 == 0 && y % 100 != 0) || y % 400 == 0

/-- Days in a month, as Go `time.daysIn`. -/
def daysInMonth (y m : Nat) : Nat :=
  if m == 2 then (if isLeap y then 29 else 28)
  else if m == 4 || m == 6 || m == 9 || m == 11 then 30
  else 31

/-- The range checks Go `time.Parse` performs on the parsed fields. -/
def validDateTime (t : GoTime) : Prop :=
  1 ≤ t.month ∧ t.month ≤ 12 ∧ 1 ≤ t.day ∧ t.day ≤ daysInMonth t.year t.month ∧
    t.hour ≤ 23 ∧ t.minute ≤ 59 ∧ t.second ≤ 59

instance (t : GoTime) : Decidable (validDateTime t) := by
  unfold validDateTime; infer_instance

/-- Numeric value of a decimal digit character. -/
def digitVal (c : Char) : Nat := c.toNat - 48

/-- Value of a big-endian list of decimal digit characters. -/
def digitsToNat (ds : List Char) : Nat := ds.foldl (fun a c => a * 10 + digitVal c) 0

/-- Read exactly `k` decimal digits from the front of the input
(Go `time.Parse` fixed-width `getnum`). -/
def readNum (k : Nat) (cs : List Char) : Option (Nat × List Char) :=
  let ds := cs.take k
  if ds.length == k && ds.all Char.isDigit then some (digitsToNat ds, cs.drop k)
  else none

/-- One pass of Go `time.Parse` over a layout: recognise the numeric layout
chunks the program's layouts use (`2006`, `01`, `02`, `15`, `04`, `05`),
treat every other character as a literal that must match the input, and
require the input to be fully consumed. -/
def goParseAux : GoTime → List Char → List Char → Option GoTime
  | t, '2' :: '0' :: '0' :: '6' :: lrest, input =>
    match readNum 4 input with
    | some (n, irest) => goParseAux { t with year := n } lrest irest
    | none => none
  | t, '0' :: '1' :: lrest, input =>
    match readNum 2 input with
    | some (n, irest) => goParseAux { t with month := n } lrest irest
    | none => none
  | t, '0' :: '2' :: lrest, input =>
    match readNum 2 input with
    | some (n, irest) => goParseAux { t with day := n } lrest irest
    | none => none
  | t, '1' :: '5' :: lrest, input =>
    match readNum 2 input with
    | some (n, irest) => goParseAux { t with hour := n } lrest irest
    | none => none
  | t, '0' :: '4' :: lrest, input =>
    match readNum 2 input with
    | some (n, irest) => goParseAux { t with minute := n } lrest irest
    | none => none
  | t, '0' :: '5' :: lrest, input =>
    match readNum 2 input with
    | some (n, irest) => goParseAux { t with second := n } lrest irest
    | none => none
  | t, c :: lrest, input =>
    match input with
    | c2 :: irest => if c == c2 then goParseAux t lrest irest else none
    | [] => none
  | t, [], input => if input.isEmpty then some t else none

/-- Go `time.Parse` for the program's layouts: structural parse followed by
the range validation Go performs; any failure yields `none` (Go: an error). -/
def goParse (layout input : String) : Option GoTime :=
  match goParseAux parseDefault layout.data input.data with
  | some t => if validDateTime t then some t else none
  | none => none

/-- Decimal digits of `n`, zero-padded on the left to width `w`
(Go `time.Time.Format` zero-padded numeric chunks). -/
def padNum (w n : Nat) : List Char :=
  let ds := Nat.toDigits 10 n
  List.replicate (w - ds.length) '0' ++ ds

/-- Go `time.Time.Format` over a layout, restricted to the numeric chunks
the program's layouts use; other characters are copied literally. -/
def goFormatAux (t : GoTime) : List Char → List Char
  | '2' :: '0' :: '0' :: '6' :: rest => padNum 4 t.year ++ goFormatAux t rest
  | '0' :: '1' :: rest => padNum 2 t.month ++ goFormatAux t rest
  | '0' :: '2' :: rest => padNum 2 t.day ++ goFormatAux t rest
  | '1' :: '5' :: rest => padNum 2 t.hour ++ goFormatAux t rest
  | '0' :: '4' :: rest => padNum 2 t.minute ++ goFormatAux t rest
  | '0' :: '5' :: rest => padNum 2 t.second ++ goFormatAux t rest
  | c :: rest => c :: goFormatAux t rest
  | [] => []

/-- Go `date.Format(layout)`. -/
def goFormat (layout : String) (t : GoTime) : String :=
  String.mk (goFormatAux t layout.data)

/-- Go `strings.ToLower` (ASCII letters are all the program compares). -/
def goToLower (s : String) : String := String.mk (s.data.map Char.toLower)

/-- Go `strings.HasSuffix`. -/
def goHasSuffix (s suffix : String) : Bool := suffix.data.isSuffixOf s.data

/-- Go `strings.Contains` for a single-character substring, which is how
the program uses it (`strings.Contains(dateStr, "-")`). -/
def goContains (s : String) (c : Char) : Bool := s.data.contains c

/-- Go `path/filepath.Ext`: suffix from the last dot of the last path
element; empty when that element has no dot. -/
def goExtAux : List Char → List Char → String
  | [], _ => ""
  | c :: rest, acc =>
    if c == '/' then "" else if c == '.' then String.mk ('.' :: acc)
    else goExtAux rest (c :: acc)

/-- Go `filepath.Ext path`. -/
def goExt (p : String) : String := goExtAux p.data.reverse []

/-- Go `path/filepath.Base`: last element of the path after dropping
trailing slashes; `"."` for the empty path, `"/"` for all-slash paths. -/
def goBase (p : String) : String :=
  if p.data.isEmpty then "." else
  let rev := p.data.reverse.dropWhile (· == '/')
  if rev.isEmpty then "/" else String.mk ((rev.takeWhile (· != '/')).reverse)

/-- The component stack of Go `path/filepath.Clean`: drop empty and `"."`
components, resolve `".."` against the stack (absolute paths discard
leading `".."`).  The stack is kept in reverse order. -/
def cleanStack (rooted : Bool) : List String → List String → List String
  | stack, [] => stack.reverse
  | stack, c :: rest =>
    if c == "" || c == "." then cleanStack rooted stack rest
    else if c == ".." then
      match stack with
      | top :: stk => if top == ".." then cleanStack rooted (c :: top :: stk) rest
                      else cleanStack rooted stk rest
      | [] => if rooted then cleanStack rooted [] rest else cleanStack rooted [".."] rest
    else cleanStack rooted (c :: stack) rest

/-- Go `path/filepath.Clean` (POSIX paths). -/
def goClean (p : String) : String :=
  if p.data.isEmpty then "." else
  let rooted := p.data.head? == some '/'
  let comps := (p.data.splitOn '/').map String.mk
  let stack := cleanStack rooted [] comps
  let body := String.mk (List.intercalate ['/'] (stack.map String.data))
  if rooted then
    if stack.isEmpty then "/" else String.mk ('/' :: (List.intercalate ['/'] (stack.map String.data)))
  else
    if stack.isEmpty then "." else body

/-- Go `path/filepath.Join`: drop leading empty elements, join the rest
with `'/'`, and `Clean` the result; all-empty input yields `""`. -/
def goJoin (elems : List String) : String :=
  match elems.dropWhile (· == "") with
  | [] => ""
  | rest => goClean (String.mk (List.intercalate ['/'] (rest.map String.data)))

/-- Go `path/filepath.Dir`: everything up to and including the final slash,
`Clean`ed; `"."` when the path has no slash. -/
def goDir (p : String) : String :=
  let rev := p.data.reverse
  let fileRev := rev.takeWhile (· != '/')
  goClean (String.mk ((rev.drop fileRev.length).reverse))

/-! ### The filename date pattern

`dateRegex = (\d{8}(?:-\d{6})?)` (main.go line 34), applied with
`FindStringSubmatch` (leftmost match; the greedy optional group is taken
when it matches). -/

/-- Attempt to match `\d{8}(?:-\d{6})?` at the head of the character list:
eight digits, then — greedily — a dash and six digits when they follow. -/
def matchHere (cs : List Char) : Option (List Char) :=
  if ((cs.take 8).length == 8 && (cs.take 8).all Char.isDigit) = true then
    if (cs.drop 8).head? = some '-' then
      if (((cs.drop 8).tail.take 6).length == 6
          && ((cs.drop 8).tail.take 6).all Char.isDigit) = true then
        some (cs.take 8 ++ '-' :: (cs.drop 8).tail.take 6)
      else some (cs.take 8)
    else some (cs.take 8)
  else none

/-- Leftmost match of the pattern: try each start position left to right. -/
def findMatchAux : List Char → Option (List Char)
  | [] => none
  | c :: cs =>
    match matchHere (c :: cs) with
    | some m => some m
    | none => findMatchAux cs

/-- Go `dateRegex.FindStringSubmatch(path)`, reduced to its `matches[0]`
(pattern and capture group coincide); `none` when `len(matches) == 0`. -/
def findDateMatch (p : String) : Option String :=
  (findMatchAux p.data).map String.mk

/-! ### extractDate (main.go lines 99-150) -/

/-- The exiftool metadata of one file, as the tag-lookup the program uses:
`GetString` yields the tag's value, or `""` with an ignored error when the
tag is absent (the code discards that error). -/
def tagString (tags : String → Option String) (tag : String) : String :=
  (tags tag).getD ""

/-- The metadata date string `extractDate` reads: `MediaCreateDate` for
`.mp4`, `DateTimeOriginal` for `.jpg`/`.jpeg`, `""` otherwise
(main.go lines 120-125). -/
def metaDateStr (path : String) (tags : String → Option String) : String :=
  if goToLower (goExt path) = ".mp4" then tagString tags "MediaCreateDate"
  else if goToLower (goExt path) = ".jpg" ∨ goToLower (goExt path) = ".jpeg" then
    tagString tags "DateTimeOriginal"
  else ""

/-- The layout `extractDate` parses metadata timestamps with (line 126). -/
def exifLayout : String := "2006:01:02 15:04:05"

/-- Whether the metadata yields a usable date: `time.Parse` succeeded and
the result is not the zero time (`!date.IsZero()`, line 127; a failed parse
leaves the zero time). -/
def usableMeta (path : String) (tags : String → Option String) : Bool :=
  match goParse exifLayout (metaDateStr path tags) with
  | some d => d != goZeroTime
  | none => false

/-- The filename fallback of `extractDate` (lines 131-149): regex match on
the PATH string, then one format chosen by the delimiter found in the match;
`none` models the returned error. -/
def extractDateFromFilename (path : String) : Option (GoTime × Bool) :=
  match findDateMatch path with
  | none => none
  | some dateStr =>
    let parsed :=
      if goContains dateStr '-' then goParse "20060102-150405" dateStr
      else if goContains dateStr '_' then goParse "20060102_150405" dateStr
      else goParse "20060102" dateStr
    parsed.map (fun d => (d, false))

/-- `extractDate` (lines 99-150): metadata first — returned with flag `true`
when parsed and non-zero — otherwise the filename fallback.  `none` models
a returned error. -/
def extractDate (path : String) (tags : String → Option String) :
    Option (GoTime × Bool) :=
  match goParse exifLayout (metaDateStr path tags) with
  | some d => if d = goZeroTime then extractDateFromFilename path else some (d, true)
  | none => extractDateFromFilename path

/-! ### I/O events and the per-file handler (main.go lines 39-87, 90-97,
152-190, 192-220)

Filesystem and exiftool side effects are recorded as an event trace; the
success of each external operation is an explicit environment flag. -/

/-- One observable I/O or logging step of the program. -/
inductive Event where
  | logError
  | logWarn
  | logInfo
  | openSrc (p : String)
  | mkdirAll (p : String)
  | createDst (p : String)
  | copyBytes (src dst : String)
  | rename (src dst : String)
  | exifInit
  | setTag (file tag value : String)
  | writeMeta (file : String) (ok : Bool)
deriving DecidableEq, Repr

/-- Outcome of each external operation the handler performs. -/
structure Env where
  openOk : Bool
  mkdirOk : Bool
  createOk : Bool
  copyOk : Bool
  renameOk : Bool
  exifInitOk : Bool
  exifWriteOk : Bool

/-- The command-line configuration (main.go lines 19-24). -/
structure Config where
  destDir : String
  copyFlag : Bool
  folderFormat : String
  updateExifFlag : Bool
  logFlag : Bool

/-- One entry handed to the walk callback: its path, `info.Name()`,
`info.IsDir()`, whether the walk reported an access error, and the file's
metadata tags. -/
structure WalkEntry where
  path : String
  name : String
  isDir : Bool
  walkErr : Bool
  tags : String → Option String

/-- `ensureDir` (lines 90-97): `MkdirAll` on `filepath.Dir(path)`, logging
on failure and returning the error. -/
def ensureDir (env : Env) (path : String) : List Event × Bool :=
  if env.mkdirOk then ([Event.mkdirAll (goDir path)], true)
  else ([Event.mkdirAll (goDir path), Event.logError], false)

/-- `copyFile` (lines 152-175): open the source, ensure the destination
directory, create the destination, stream the bytes; stop at the first
failure. -/
def copyFile (env : Env) (src dest : String) : List Event × Bool :=
  if !env.openOk then ([Event.openSrc src], false)
  else
    let ed := ensureDir env dest
    if !ed.2 then (Event.openSrc src :: ed.1, false)
    else if !env.createOk then (Event.openSrc src :: ed.1 ++ [Event.createDst dest], false)
    else (Event.openSrc src :: ed.1 ++ [Event.createDst dest, Event.copyBytes src dest],
          env.copyOk)

/-- `renameFile` (lines 177-190): ensure the destination directory, then
`os.Rename`; stop if directory creation fails. -/
def renameFile (env : Env) (src dest : String) : List Event × Bool :=
  let ed := ensureDir env dest
  if !ed.2 then (ed.1, false)
  else (ed.1 ++ [Event.rename src dest], env.renameOk)

/-- `updateExif` (lines 192-220): an exiftool handle is initialised (error
returned on failure); the type-appropriate tags are set — note the code's
`".jepg"` comparison for the image branch — `WriteMetadata` is called, and
`nil` is returned without consulting the write's outcome.  The returned
`Bool` is `true` when the function returns `nil`. -/
def updateExif (env : Env) (path : String) (d : GoTime) : List Event × Bool :=
  if !env.exifInitOk then ([Event.logError], false)
  else
    let v := goFormat "2006-01-02 15:04:05" d
    let sets :=
      if goToLower (goExt path) = ".mp4" then
        [Event.setTag path "MediaCreateDate" v, Event.setTag path "CreateDate" v]
      else if goToLower (goExt path) = ".jpg" ∨ goToLower (goExt path) = ".jepg" then
        [Event.setTag path "DateTimeOriginal" v, Event.setTag path "CreateDate" v]
      else []
    (Event.exifInit :: sets ++ [Event.writeMeta path env.exifWriteOk], true)

/-- The walk callback of `main` (lines 39-87) for one entry: its event
trace and the `error` it returns to `filepath.Walk` (`none` = `nil`). -/
def processFile (cfg : Config) (env : Env) (e : WalkEntry) :
    List Event × Option Unit :=
  if e.walkErr then ([Event.logError], none)
  else if e.isDir
      || (!(goHasSuffix (goToLower e.name) ".jpg")
          && !(goHasSuffix (goToLower e.name) ".mp4")) then ([], none)
  else
    match extractDate e.path e.tags with
    | none => ([Event.logError], none)
    | some di =>
      let newName := goJoin [cfg.destDir, goFormat cfg.folderFormat di.1, goBase e.path]
      let tr := if cfg.copyFlag then copyFile env e.path newName
                else renameFile env e.path newName
      if !tr.2 then (tr.1 ++ [Event.logError], none)
      else if cfg.updateExifFlag && !di.2 then
        let u := updateExif env newName di.1
        if !u.2 then (tr.1 ++ Event.logWarn :: u.1 ++ [Event.logError], none)
        else (tr.1 ++ Event.logWarn :: u.1
                ++ (if cfg.logFlag then [Event.logInfo] else []), none)
      else (tr.1 ++ (if cfg.logFlag then [Event.logInfo] else []), none)

/-- Events of the transfer step: everything `copyFile`/`renameFile` emit
towards the filesystem. -/
def isTransferEvent : Event → Bool
  | .openSrc _ => true
  | .mkdirAll _ => true
  | .createDst _ => true
  | .copyBytes _ _ => true
  | .rename _ _ => true
  | _ => false

/-- Events of the metadata-backfill step: everything `updateExif` emits
towards exiftool. -/
def isBackfillEvent : Event → Bool
  | .exifInit => true
  | .setTag _ _ _ => true
  | .writeMeta _ _ => true
  | _ => false

/-! ## Helper lemmas -/

/-- When the metadata yields no usable date, `extractDate` is exactly the
filename fallback. -/
theorem extractDate_of_not_usableMeta (path : String)
    (tags : String → Option String) (h : usableMeta path tags = false) :
    extractDate path tags = extractDateFromFilename path := by
  unfold usableMeta at h
  unfold extractDate
  cases hp : goParse exifLayout (metaDateStr path tags) with
  | none => rfl
  | some d =>
    rw [hp] at h
    simp only [bne_eq_false_iff_eq] at h
    simp [h]

/-! ## C1 — metadata wins when it parses to a non-zero timestamp -/

/-- C1: for a file whose capture tag (`MediaCreateDate` for `.mp4`,
`DateTimeOriginal` for `.jpg`/`.jpeg`) holds a string that parses under the
fixed layout to a non-zero timestamp, `extractDate` returns that timestamp
with `fromMetadata = true`, whatever the filename contains. -/
theorem extractDate_metadata_wins (path : String) (tags : String → Option String)
    (s : String) (d : GoTime)
    (hs : (goToLower (goExt path) = ".mp4" ∧ tags "MediaCreateDate" = some s)
        ∨ ((goToLower (goExt path) = ".jpg" ∨ goToLower (goExt path) = ".jpeg")
            ∧ tags "DateTimeOriginal" = some s))
    (hp : goParse exifLayout s = some d)
    (hz : d ≠ goZeroTime) :
    extractDate path tags = some (d, true) := by
  have hms : metaDateStr path tags = s := by
    rcases hs with ⟨hext, htag⟩ | ⟨hext, htag⟩
    · simp [metaDateStr, tagString, hext, htag]
    · rcases hext with hext | hext <;>
        simp [metaDateStr, tagString, hext, htag]
  unfold extractDate
  rw [hms, hp]
  simp [hz]

/-- Witness for C1 at a concrete `.mp4` file whose filename also carries a
(different) date, checking the metadata timestamp is the one returned. -/
theorem extractDate_metadata_wins_witness :
    extractDate "v_19990909-090909.mp4"
        (fun t => if t = "MediaCreateDate" then some "2023:06:15 14:30:00" else none)
      = some (⟨2023, 6, 15, 14, 30, 0⟩, true) :=
  extractDate_metadata_wins _ _ "2023:06:15 14:30:00" ⟨2023, 6, 15, 14, 30, 0⟩
    (Or.inl ⟨by decide, by decide⟩) (by decide) (by decide)

/-! ## C2 — the filename pattern -/

/-- Any successful match at one position consists of digits and dashes. -/
theorem matchHere_shape {cs m : List Char} (h : matchHere cs = some m) :
    ∀ c ∈ m, c.isDigit = true ∨ c = '-' := by
  unfold matchHere at h
  split at h
  next h8 =>
    rw [Bool.and_eq_true] at h8
    have h8d : ∀ c ∈ cs.take 8, c.isDigit = true := List.all_eq_true.mp h8.2
    split at h
    · split at h
      next h6 =>
        rw [Bool.and_eq_true] at h6
        have h6d : ∀ c ∈ ((cs.drop 8).tail.take 6), c.isDigit = true :=
          List.all_eq_true.mp h6.2
        cases h
        intro c hc
        rcases List.mem_append.mp hc with hc | hc
        · exact Or.inl (h8d c hc)
        · rcases List.mem_cons.mp hc with hc | hc
          · exact Or.inr hc
          · exact Or.inl (h6d c hc)
      next =>
        cases h
        intro c hc
        exact Or.inl (h8d c hc)
    · cases h
      intro c hc
      exact Or.inl (h8d c hc)
  next => exact absurd h (by simp)

/-- Any leftmost match of the pattern consists of digits and dashes. -/
theorem findMatchAux_shape {cs m : List Char} (h : findMatchAux cs = some m) :
    ∀ c ∈ m, c.isDigit = true ∨ c = '-' := by
  induction cs with
  | nil => exact absurd h (by simp [findMatchAux])
  | cons c cs ih =>
    unfold findMatchAux at h
    split at h
    next m' hm => cases h; exact matchHere_shape hm
    next => exact ih h

/-- The matched substring can never contain an underscore: the pattern has
no `_`, so the underscore-format branch of `extractDate` is unreachable. -/
theorem findDateMatch_no_underscore {p m : String}
    (h : findDateMatch p = some m) : goContains m '_' = false := by
  unfold findDateMatch at h
  cases hm : findMatchAux p.data with
  | none => rw [hm] at h; exact absurd h (by simp)
  | some l =>
    rw [hm] at h
    simp only [Option.map_some', Option.some.injEq] at h
    subst h
    have hs := findMatchAux_shape hm
    unfold goContains
    rw [Bool.eq_false_iff]
    intro hc
    have hmem : '_' ∈ l := by
      simpa using (List.elem_iff).mp hc
    rcases hs '_' hmem with hdig | hdash
    · exact absurd hdig (by decide)
    · exact absurd hdash (by decide)

/-- C2 counterexample: for `IMG_20230615_143000.jpg` (no metadata) the
underscore-delimited time is NOT captured — the pattern stops at the 8-digit
date, and the resolved timestamp is midnight, not 14:30:00 as the claim
requires. -/
theorem underscore_time_dropped :
    extractDate "IMG_20230615_143000.jpg" (fun _ => none)
        = some (⟨2023, 6, 15, 0, 0, 0⟩, false)
      ∧ (⟨2023, 6, 15, 0, 0, 0⟩ : GoTime) ≠ ⟨2023, 6, 15, 14, 30, 0⟩ :=
  ⟨by decide, by decide⟩

/-- C2 amended: with no usable metadata and a pattern match `m` on the path,
`extractDate` returns the parse of `m` with `fromMetadata = false`; a match
containing a dash parses as date-time, any other match parses as date-only.
The match never contains an underscore — an underscore-delimited time in the
filename is not captured, so only its 8-digit date is used. -/
theorem extractDate_filename_pattern (path : String) (tags : String → Option String)
    (m : String) (hmeta : usableMeta path tags = false)
    (hf : findDateMatch path = some m) :
    goContains m '_' = false
    ∧ (goContains m '-' = true →
        extractDate path tags = (goParse "20060102-150405" m).map (fun d => (d, false)))
    ∧ (goContains m '-' = false →
        extractDate path tags = (goParse "20060102" m).map (fun d => (d, false))) := by
  have hu := findDateMatch_no_underscore hf
  have he := extractDate_of_not_usableMeta path tags hmeta
  refine ⟨hu, ?_, ?_⟩ <;> intro hd <;>
    (rw [he]; unfold extractDateFromFilename; rw [hf]; simp [hd, hu])

/-- Witness for C2 at a concrete dash-delimited filename. -/
theorem extractDate_filename_pattern_witness :
    usableMeta "d/PXL_20210203-040506.mp4" (fun _ => none) = false
    ∧ extractDate "d/PXL_20210203-040506.mp4" (fun _ => none)
        = some (⟨2021, 2, 3, 4, 5, 6⟩, false) := by
  have h := extractDate_filename_pattern "d/PXL_20210203-040506.mp4" (fun _ => none)
    "20210203-040506" (by decide) (by decide)
  exact ⟨by decide, (h.2.1 (by decide)).trans (by decide)⟩

/-! ## C3 — the filename parser sees the whole path, not the base name -/

/-- C3 counterexample: two paths with the same base name resolve
differently, because the pattern is applied to the full path — the digits of
a directory component decide the date for `20200101/IMG.jpg`, while
`a/IMG.jpg` fails. -/
theorem directory_digits_influence_date :
    goBase "a/IMG.jpg" = goBase "20200101/IMG.jpg"
    ∧ extractDate "a/IMG.jpg" (fun _ => none) = none
    ∧ extractDate "20200101/IMG.jpg" (fun _ => none)
        = some (⟨2020, 1, 1, 0, 0, 0⟩, false) :=
  ⟨by decide, by decide, by decide⟩

/-- C3 amended: the filename fallback is a function of the pattern match on
the FULL path (not of the base name): any two paths without usable metadata
whose full-path matches agree resolve to the same result. -/
theorem extractDate_determined_by_path_match (p₁ p₂ : String)
    (tags₁ tags₂ : String → Option String)
    (h₁ : usableMeta p₁ tags₁ = false) (h₂ : usableMeta p₂ tags₂ = false)
    (hm : findDateMatch p₁ = findDateMatch p₂) :
    extractDate p₁ tags₁ = extractDate p₂ tags₂ := by
  rw [extractDate_of_not_usableMeta p₁ tags₁ h₁,
      extractDate_of_not_usableMeta p₂ tags₂ h₂]
  unfold extractDateFromFilename
  rw [hm]

/-- Witness for C3's amended statement: equal full-path matches, very
different paths and base names, equal results. -/
theorem extractDate_determined_by_path_match_witness :
    extractDate "x/IMG_20230615.jpg" (fun _ => none)
      = extractDate "img20230615abc.jpg" (fun _ => none) :=
  extractDate_determined_by_path_match _ _ _ _ (by decide) (by decide) (by decide)

/-! ## C4 — date-resolution failure: error, and the transfer is never reached -/

/-- C4: with neither a usable metadata timestamp nor a pattern match on the
path, `extractDate` returns an error, and the per-file handler emits no
filesystem transfer operation at all for this entry. -/
theorem no_date_no_transfer (cfg : Config) (env : Env) (e : WalkEntry)
    (hmeta : usableMeta e.path e.tags = false)
    (hf : findDateMatch e.path = none) :
    extractDate e.path e.tags = none
    ∧ ∀ ev ∈ (processFile cfg env e).1, isTransferEvent ev = false := by
  have hex : extractDate e.path e.tags = none := by
    rw [extractDate_of_not_usableMeta e.path e.tags hmeta]
    unfold extractDateFromFilename
    rw [hf]
  refine ⟨hex, ?_⟩
  unfold processFile
  split
  · intro ev hev
    simp only [List.mem_singleton] at hev
    subst hev; rfl
  · split
    · intro ev hev
      simp at hev
    · rw [hex]
      intro ev hev
      simp only [List.mem_singleton] at hev
      subst hev; rfl

/-- Witness for C4 at a dateless `.jpg` with no metadata. -/
theorem no_date_no_transfer_witness :
    extractDate "s/nodate.jpg" (fun _ => none) = none
    ∧ ∀ ev ∈ (processFile ⟨"/out", false, "2006/01/02", false, false⟩
          ⟨true, true, true, true, true, true, true⟩
          ⟨"s/nodate.jpg", "nodate.jpg", false, false, fun _ => none⟩).1,
        isTransferEvent ev = false :=
  no_date_no_transfer ⟨"/out", false, "2006/01/02", false, false⟩
    ⟨true, true, true, true, true, true, true⟩
    ⟨"s/nodate.jpg", "nodate.jpg", false, false, fun _ => none⟩
    (by decide) (by decide)

/-! ## C8 — the walk callback returns nil in every branch -/

/-- C8: whatever the entry, configuration, and I/O outcomes — access error,
date-resolution failure, transfer failure, backfill failure included — the
walk callback returns `nil`, so no single file aborts the traversal. -/
theorem walk_callback_returns_nil (cfg : Config) (env : Env) (e : WalkEntry) :
    (processFile cfg env e).2 = none := by
  unfold processFile
  dsimp only
  repeat' split
  all_goals rfl

/-! ## C9 — only lowercased `.jpg` / `.mp4` files are processed -/

/-- C9: a directory, or any entry whose lowercased name ends in neither
`.jpg` nor `.mp4`, is skipped outright: no events, no error — regardless of
its path, its metadata, the configuration, or the I/O environment. -/
theorem filter_skips_non_media (cfg : Config) (env : Env) (e : WalkEntry)
    (hw : e.walkErr = false)
    (h : e.isDir = true
      ∨ (goHasSuffix (goToLower e.name) ".jpg" = false
          ∧ goHasSuffix (goToLower e.name) ".mp4" = false)) :
    processFile cfg env e = ([], none) := by
  rcases h with h | ⟨h1, h2⟩
  · simp [processFile, hw, h]
  · simp [processFile, hw, h1, h2]

/-- Witness for C9: a `.png` whose name carries a date pattern and whose
metadata holds a valid timestamp is still skipped. -/
theorem filter_skips_non_media_witness :
    processFile ⟨"/out", true, "2006/01/02", true, true⟩
      ⟨true, true, true, true, true, true, true⟩
      ⟨"s/PIC_20230615-143000.png", "PIC_20230615-143000.png", false, false,
        fun _ => some "2023:06:15 14:30:00"⟩ = ([], none) :=
  filter_skips_non_media _ _ _ (by decide) (Or.inr ⟨by decide, by decide⟩)

/-! ## C6 — backfill runs only for filename-derived dates with the flag set -/

/-- The transfer step emits no exiftool event. -/
theorem transfer_no_backfill (c : Bool) (env : Env) (src dst : String) :
    ((if c then copyFile env src dst else renameFile env src dst).1.all
      fun ev => !isBackfillEvent ev) = true := by
  cases c <;> unfold copyFile renameFile ensureDir <;> dsimp only <;>
    repeat' split
  all_goals rfl

/-- A backfill event in the trace of the transfer-and-backfill stage forces
the backfill guard to have been true: the transfer trace `trP.1` contains no
backfill event and neither do the logging events around it. -/
theorem backfill_event_forces_guard (ev : Event) (trP uP : List Event × Bool)
    (flag2 lf : Bool)
    (htr : (trP.1.all fun x => !isBackfillEvent x) = true)
    (hbf : isBackfillEvent ev = true)
    (hev : ev ∈ (if (!trP.2) = true then (trP.1 ++ [Event.logError], (none : Option Unit))
      else if flag2 = true then
        (if (!uP.2) = true then (trP.1 ++ Event.logWarn :: uP.1 ++ [Event.logError], none)
         else (trP.1 ++ Event.logWarn :: uP.1
                ++ (if lf = true then [Event.logInfo] else []), none))
      else (trP.1 ++ (if lf = true then [Event.logInfo] else []), none)).1) :
    flag2 = true := by
  split at hev
  · dsimp only at hev
    rcases List.mem_append.mp hev with hin | hin
    · have := List.all_eq_true.mp htr ev hin
      simp [hbf] at this
    · simp only [List.mem_singleton] at hin
      subst hin; exact absurd hbf (by decide)
  · split at hev
    · assumption
    · dsimp only at hev
      rcases List.mem_append.mp hev with hin | hin
      · have := List.all_eq_true.mp htr ev hin
        simp [hbf] at this
      · split at hin
        · simp only [List.mem_singleton] at hin
          subst hin; exact absurd hbf (by decide)
        · simp at hin

/-- C6: any backfill event in a per-file trace implies the `--update-exif`
flag was set and the resolved date was filename-derived
(`fromMetadata = false`); dates from metadata, or an unset flag, never
produce one. -/
theorem backfill_only_when_optin_and_filename (cfg : Config) (env : Env)
    (e : WalkEntry) :
    ∀ ev ∈ (processFile cfg env e).1, isBackfillEvent ev = true →
      cfg.updateExifFlag = true
      ∧ ∃ d, extractDate e.path e.tags = some (d, false) := by
  intro ev hev hbf
  unfold processFile at hev
  split at hev
  · simp only [List.mem_singleton] at hev
    subst hev; exact absurd hbf (by decide)
  · split at hev
    · simp at hev
    · cases hex : extractDate e.path e.tags with
      | none =>
        rw [hex] at hev
        simp only [List.mem_singleton] at hev
        subst hev; exact absurd hbf (by decide)
      | some di =>
        rw [hex] at hev
        dsimp only at hev
        have htr := transfer_no_backfill cfg.copyFlag env e.path
          (goJoin [cfg.destDir, goFormat cfg.folderFormat di.1, goBase e.path])
        have hflag := backfill_event_forces_guard ev _ _ _ _ htr hbf hev
        rw [Bool.and_eq_true] at hflag
        refine ⟨hflag.1, di.1, ?_⟩
        have hd2 : di.2 = false := by simpa using hflag.2
        rw [← hd2]

/-- Witness for C6: a backfill event observed for a filename-dated `.mp4`
implies the flag and provenance conclusions at that input. -/
theorem backfill_only_when_optin_and_filename_witness :
    (⟨"/dst", true, "2006/01/02", true, false⟩ : Config).updateExifFlag = true
    ∧ ∃ d, extractDate "VID_20200102-030405.mp4" (fun _ => none)
        = some (d, false) :=
  backfill_only_when_optin_and_filename
    ⟨"/dst", true, "2006/01/02", true, false⟩
    ⟨true, true, true, true, true, true, true⟩
    ⟨"VID_20200102-030405.mp4", "VID_20200102-030405.mp4", false, false,
      fun _ => none⟩
    Event.exifInit (by decide) (by decide)

/-! ## C7 — the destination directory is ensured before the write -/

/-- Event `a` occurs strictly before any occurrence of event `b` in the
trace: whenever `b` occurs, some prefix of the trace contains `a` but not
`b`. -/
def eventBefore (a b : Event) (tr : List Event) : Prop :=
  b ∈ tr → ∃ n, a ∈ tr.take n ∧ b ∉ tr.take n

/-- C7: in both transfer modes the parent directory of the destination is
created (`MkdirAll` on `filepath.Dir dst`) before the destination write —
the `Create` in copy mode, the `Rename` in move mode — and when that
directory creation fails, the write never happens and the transfer reports
failure. -/
theorem transfer_dir_ensured_before_write (env : Env) (src dst : String) :
    eventBefore (Event.mkdirAll (goDir dst)) (Event.createDst dst)
      (copyFile env src dst).1
    ∧ eventBefore (Event.mkdirAll (goDir dst)) (Event.rename src dst)
        (renameFile env src dst).1
    ∧ (env.mkdirOk = false →
        Event.createDst dst ∉ (copyFile env src dst).1
        ∧ (copyFile env src dst).2 = false
        ∧ Event.rename src dst ∉ (renameFile env src dst).1
        ∧ (renameFile env src dst).2 = false) := by
  obtain ⟨o, mk, cr, cp, rn, ei, ew⟩ := env
  refine ⟨?_, ?_, ?_⟩
  · intro hb
    cases o
    · exact absurd hb (by simp [copyFile])
    · cases mk
      · exact absurd hb (by simp [copyFile, ensureDir])
      · cases cr <;>
          exact ⟨2, by simp [copyFile, ensureDir], by simp [copyFile, ensureDir]⟩
  · intro hb
    cases mk
    · exact absurd hb (by simp [renameFile, ensureDir])
    · exact ⟨1, by simp [renameFile, ensureDir], by simp [renameFile, ensureDir]⟩
  · intro hmk
    cases mk
    · cases o <;> cases cr <;>
        exact ⟨by simp [copyFile, ensureDir], rfl, by simp [renameFile, ensureDir], rfl⟩
    · exact absurd hmk (by simp)

/-- Witness for C7: with every operation succeeding, the mkdir of the
destination's directory precedes the create, concretely. -/
theorem transfer_dir_ensured_before_write_witness :
    ∃ n, Event.mkdirAll (goDir "/out/2023/a.jpg")
          ∈ ((copyFile ⟨true, true, true, true, true, true, true⟩
              "s/a.jpg" "/out/2023/a.jpg").1.take n)
      ∧ Event.createDst "/out/2023/a.jpg"
          ∉ ((copyFile ⟨true, true, true, true, true, true, true⟩
              "s/a.jpg" "/out/2023/a.jpg").1.take n) :=
  (transfer_dir_ensured_before_write ⟨true, true, true, true, true, true, true⟩
    "s/a.jpg" "/out/2023/a.jpg").1 (by decide)

/-! ## C10 — a metadata-write failure is invisible to the caller -/

/-- C10: `updateExif` returns an error exactly when the exiftool handle
fails to initialise; once initialised it calls `WriteMetadata` and returns
`nil` unconditionally, so a failed write (`exifWriteOk = false`) is still
attempted — it appears in the trace — but never reported. -/
theorem updateExif_swallows_write_failure (env : Env) (p : String) (d : GoTime) :
    (updateExif env p d).2 = env.exifInitOk
    ∧ (env.exifInitOk = true →
        Event.writeMeta p env.exifWriteOk ∈ (updateExif env p d).1) := by
  obtain ⟨o, mk, cr, cp, rn, ei, ew⟩ := env
  cases ei
  · exact ⟨rfl, fun h => absurd h (by simp)⟩
  · refine ⟨rfl, fun _ => ?_⟩
    unfold updateExif
    dsimp only
    exact List.mem_cons_of_mem _ (List.mem_append_right _ (List.mem_singleton_self _))

/-- Witness for C10: write failure, successful init — `nil` is returned and
the failed write is in the trace. -/
theorem updateExif_swallows_write_failure_witness :
    (updateExif ⟨true, true, true, true, true, true, false⟩ "x.jpg"
        ⟨2023, 6, 15, 14, 30, 0⟩).2 = true
    ∧ Event.writeMeta "x.jpg" false
        ∈ (updateExif ⟨true, true, true, true, true, true, false⟩ "x.jpg"
            ⟨2023, 6, 15, 14, 30, 0⟩).1 :=
  ⟨(updateExif_swallows_write_failure ⟨true, true, true, true, true, true, false⟩
      "x.jpg" ⟨2023, 6, 15, 14, 30, 0⟩).1,
    (updateExif_swallows_write_failure ⟨true, true, true, true, true, true, false⟩
      "x.jpg" ⟨2023, 6, 15, 14, 30, 0⟩).2 rfl⟩

/-! ## C5 — the documented scenario -/

/-- C5: for `IMG_20230615-143000.jpg` with no embedded metadata, run with
`--datefmt 2006/01/02`, `--dest /out` and `--update-exif`, the file is
moved to `/out/2023/06/15/IMG_20230615-143000.jpg` and the relocated file's
`DateTimeOriginal` tag is set to `2023-06-15 14:30:00`. -/
theorem scenario_img_20230615 :
    Event.rename "IMG_20230615-143000.jpg"
        "/out/2023/06/15/IMG_20230615-143000.jpg"
      ∈ (processFile ⟨"/out", false, "2006/01/02", true, false⟩
          ⟨true, true, true, true, true, true, true⟩
          ⟨"IMG_20230615-143000.jpg", "IMG_20230615-143000.jpg", false, false,
            fun _ => none⟩).1
    ∧ Event.setTag "/out/2023/06/15/IMG_20230615-143000.jpg" "DateTimeOriginal"
          "2023-06-15 14:30:00"
        ∈ (processFile ⟨"/out", false, "2006/01/02", true, false⟩
            ⟨true, true, true, true, true, true, true⟩
            ⟨"IMG_20230615-143000.jpg", "IMG_20230615-143000.jpg", false, false,
              fun _ => none⟩).1 :=
  ⟨by decide, by decide⟩

end ExifSorter
